import Mathlib

/-!
Verification of the ioBroker.edupage adapter.

Shallow embedding of the EduPage HTTP envelope codec (`lib/eqav.js`:
`buildEqBody`, `unwrapEqResponseText`), the RPC retry sequencer
(`EdupageHttp.rpc`), the manual redirect follower
(`EdupageHttp._requestFollow`), the backoff controller
(`_scheduleBackoff` / `_clearBackoffOnSuccess`), the captcha handling of
`syncOnce` / `makeAbsoluteUrl` / `handleCaptcha`, and the session warmup
(`EdupageClient.warmUpTimetable` / `hasCookie`).

Strings that travel over the wire are modelled as lists of bytes
(`List Nat`, each element `< 256`), i.e. the UTF-8 byte view that the
JavaScript code passes to `Buffer.from(s, 'utf8')`.  Library primitives
the code calls (`zlib.deflateRawSync`, SHA-1, `JSON.parse`) are taken as
abstract function parameters, while base64 (Node's
`Buffer.prototype.toString('base64')` / `Buffer.from(b64, 'base64')`) is
modelled concretely so that its round-trip behaviour can be proved.
-/

namespace Edupage

/-! ## Base64 (model of Node's Buffer base64 codec, RFC 4648) -/

/-- Encode one 6-bit group as its base64 alphabet byte
(`A-Z`, `a-z`, `0-9`, `+`, `/`). -/
def b64charEnc (n : Nat) : Nat :=
  if n < 26 then 65 + n
  else if n < 52 then 97 + (n - 26)
  else if n < 62 then 48 + (n - 52)
  else if n = 62 then 43
  else 47

/-- Decode one base64 alphabet byte back to its 6-bit group. -/
def b64charDec (c : Nat) : Nat :=
  if 65 ≤ c ∧ c ≤ 90 then c - 65
  else if 97 ≤ c ∧ c ≤ 122 then 26 + (c - 97)
  else if 48 ≤ c ∧ c ≤ 57 then 52 + (c - 48)
  else if c = 43 then 62
  else if c = 47 then 63
  else 0

/-- Base64-encode a byte list, padding the last group with `'='` (61). -/
def b64encodeBytes : List Nat → List Nat
  | a :: b :: c :: rest =>
      b64charEnc (a / 4) :: b64charEnc ((a % 4) * 16 + b / 16) ::
      b64charEnc ((b % 16) * 4 + c / 64) :: b64charEnc (c % 64) ::
      b64encodeBytes rest
  | [a, b] =>
      [b64charEnc (a / 4), b64charEnc ((a % 4) * 16 + b / 16),
       b64charEnc ((b % 16) * 4), 61]
  | [a] =>
      [b64charEnc (a / 4), b64charEnc ((a % 4) * 16), 61, 61]
  | [] => []

/-- Base64-decode a byte list, honouring `'='` padding. -/
def b64decodeBytes : List Nat → List Nat
  | c0 :: c1 :: c2 :: c3 :: rest =>
      if c2 = 61 then
        [b64charDec c0 * 4 + b64charDec c1 / 16]
      else if c3 = 61 then
        [b64charDec c0 * 4 + b64charDec c1 / 16,
         (b64charDec c1 % 16) * 16 + b64charDec c2 / 4]
      else
        (b64charDec c0 * 4 + b64charDec c1 / 16) ::
        ((b64charDec c1 % 16) * 16 + b64charDec c2 / 4) ::
        ((b64charDec c2 % 4) * 64 + b64charDec c3) ::
        b64decodeBytes rest
  | _ => []

lemma b64charDec_enc {n : Nat} (h : n < 64) : b64charDec (b64charEnc n) = n := by
  revert h
  revert n
  decide

lemma b64charEnc_ne_61 (n : Nat) : b64charEnc n ≠ 61 := by
  unfold b64charEnc
  split
  · omega
  · split
    · omega
    · split
      · omega
      · split
        · omega
        · omega

lemma b64charEnc_ne_58 (n : Nat) : b64charEnc n ≠ 58 := by
  unfold b64charEnc
  split
  · omega
  · split
    · omega
    · split
      · omega
      · split
        · omega
        · omega

/-- Every byte of a base64 encoding is an alphabet byte or padding;
in particular it is never `':'` (58). -/
lemma b64encodeBytes_ne_58 (bs : List Nat) :
    ∀ c ∈ b64encodeBytes bs, c ≠ 58 := by
  induction bs using b64encodeBytes.induct with
  | case1 a b c rest ih =>
      intro x hx
      simp only [b64encodeBytes, List.mem_cons] at hx
      rcases hx with rfl | rfl | rfl | rfl | hx
      · exact b64charEnc_ne_58 _
      · exact b64charEnc_ne_58 _
      · exact b64charEnc_ne_58 _
      · exact b64charEnc_ne_58 _
      · exact ih x hx
  | case2 a b =>
      intro x hx
      simp only [b64encodeBytes, List.mem_cons] at hx
      rcases hx with rfl | rfl | rfl | rfl | hx
      · exact b64charEnc_ne_58 _
      · exact b64charEnc_ne_58 _
      · exact b64charEnc_ne_58 _
      · omega
      · simp at hx
  | case3 a =>
      intro x hx
      simp only [b64encodeBytes, List.mem_cons] at hx
      rcases hx with rfl | rfl | rfl | rfl | hx
      · exact b64charEnc_ne_58 _
      · exact b64charEnc_ne_58 _
      · omega
      · omega
      · simp at hx
  | case4 =>
      intro x hx
      simp [b64encodeBytes] at hx

lemma div16_mul_add (r q : Nat) (hq : q < 16) : (r * 16 + q) / 16 = r := by
  omega

lemma mod16_mul_add (r q : Nat) (hq : q < 16) : (r * 16 + q) % 16 = q := by
  omega

lemma mul4_div4 (r : Nat) : r * 4 / 4 = r := by
  omega

lemma mul16_div16 (r : Nat) : r * 16 / 16 = r := by
  omega

/-- Decoding inverts encoding on genuine byte lists (all elements `< 256`). -/
theorem b64_roundtrip (bs : List Nat) (hb : ∀ b ∈ bs, b < 256) :
    b64decodeBytes (b64encodeBytes bs) = bs := by
  induction bs using b64encodeBytes.induct with
  | case1 a b c rest ih =>
      have ha : a < 256 := hb a (by simp)
      have hbb : b < 256 := hb b (by simp)
      have hc : c < 256 := hb c (by simp)
      have hrest : ∀ x ∈ rest, x < 256 := by
        intro x hx
        exact hb x (by simp [hx])
      have h0 : a / 4 < 64 := by omega
      have h1 : (a % 4) * 16 + b / 16 < 64 := by omega
      have h2 : (b % 16) * 4 + c / 64 < 64 := by omega
      have h3 : c % 64 < 64 := by omega
      simp only [b64encodeBytes, b64decodeBytes,
        if_neg (b64charEnc_ne_61 _),
        b64charDec_enc h0, b64charDec_enc h1, b64charDec_enc h2,
        b64charDec_enc h3, ih hrest, List.cons.injEq, and_true]
      omega
  | case2 a b =>
      have ha : a < 256 := hb a (by simp)
      have hbb : b < 256 := hb b (by simp)
      have h0 : a / 4 < 64 := by omega
      have h1 : (a % 4) * 16 + b / 16 < 64 := by omega
      have h2 : (b % 16) * 4 < 64 := by omega
      simp only [b64encodeBytes, b64decodeBytes,
        if_neg (b64charEnc_ne_61 _), if_pos rfl,
        b64charDec_enc h0, b64charDec_enc h1, b64charDec_enc h2,
        if_true, List.cons.injEq, and_true]
      rw [div16_mul_add (a % 4) (b / 16) (by omega),
        mod16_mul_add (a % 4) (b / 16) (by omega), mul4_div4]
      omega
  | case3 a =>
      have ha : a < 256 := hb a (by simp)
      have h0 : a / 4 < 64 := by omega
      have h1 : (a % 4) * 16 < 64 := by omega
      simp only [b64encodeBytes, b64decodeBytes, if_pos rfl, if_true,
        b64charDec_enc h0, b64charDec_enc h1, List.cons.injEq, and_true]
      rw [mul16_div16]
      omega
  | case4 => simp [b64encodeBytes, b64decodeBytes]

lemma isPrefixOf_subset :
    ∀ (l₁ l₂ : List Nat), l₁.isPrefixOf l₂ = true → ∀ x ∈ l₁, x ∈ l₂
  | [], _, _, x, hx => by simp at hx
  | a :: as, [], h, x, hx => by simp [List.isPrefixOf] at h
  | a :: as, b :: bs, h, x, hx => by
      simp only [List.isPrefixOf, Bool.and_eq_true, beq_iff_eq] at h
      rcases List.mem_cons.mp hx with rfl | hx
      · simp [h.1]
      · exact List.mem_cons_of_mem _ (isPrefixOf_subset as bs h.2 x hx)

lemma isPrefixOf_append_self (l t : List Nat) : l.isPrefixOf (l ++ t) = true := by
  induction l with
  | nil => simp [List.isPrefixOf]
  | cons a as ih => simp [List.isPrefixOf, ih]

/-! ## Envelope codec: `lib/eqav.js` (`buildEqBody`, `unwrapEqResponseText`)
and the inline envelope computation of `EdupageHttp.rpc`. -/

/-- The bytes of the marker string `"dz:"`. -/
def dzMarker : List Nat := [100, 122, 58]

/-- The bytes of the marker string `"eqz:"`. -/
def eqzMarker : List Nat := [101, 113, 122, 58]

/-- The bytes of the marker string `"eqwd:"`. -/
def eqwdMarker : List Nat := [101, 113, 119, 100, 58]

/-- The record returned by `buildEqBody` (lib/eqav.js). -/
structure EqBody where
  eqap : List Nat
  eqacs : List Nat
  eqaz : List Nat
  eqav : Nat
  maxEqav : Nat
  useZip : Bool
deriving Repr, DecidableEq

/-- Function `buildEqBody` (lib/eqav.js): `useZip = eqav % 2 == 1`; when zipping,
`eqap = 'dz:' + base64(deflateRaw(utf8 bytes))`, otherwise `eqap = base64(s)`;
`eqacs = sha1hex(eqap)`; `eqaz = useEncryption ? '1' : '0'` (bytes 49/48).
`zlib.deflateRawSync` and the SHA-1 hex digest are abstract parameters. -/
def buildEqBody (deflateRaw sha1hex : List Nat → List Nat)
    (formEncodedString : List Nat) (eqav maxEqav : Nat)
    (useEncryption : Bool) : EqBody :=
  let useZip := eqav % 2 == 1
  let eqap :=
    if useZip then dzMarker ++ b64encodeBytes (deflateRaw formEncodedString)
    else b64encodeBytes formEncodedString
  { eqap := eqap
    eqacs := sha1hex eqap
    eqaz := if useEncryption then [49] else [48]
    eqav := eqav
    maxEqav := maxEqav
    useZip := useZip }

/-- Function `unwrapEqResponseText` (lib/eqav.js), default `useEncryption = true`:
if encryption is off the text passes through; if it starts with `"eqz:"`
the remainder is base64-decoded; otherwise it passes through. -/
def unwrapEqResponseText (respText : List Nat)
    (useEncryption : Bool := true) : List Nat :=
  if useEncryption = false then respText
  else if eqzMarker.isPrefixOf respText then b64decodeBytes (respText.drop 4)
  else respText

/-- Method `EdupageHttp.makeEqapFromCs` (lib/edupageHttp eq wrapper):
always `'dz:' + base64(deflateRaw(cs))`. -/
def makeEqapFromCs (deflateRaw : List Nat → List Nat) (cs : List Nat) : List Nat :=
  dzMarker ++ b64encodeBytes (deflateRaw cs)

/-- Method `EdupageHttp.decodeEqzIfNeeded`: strip-and-decode on an `"eqz:"` head,
identity otherwise. -/
def decodeEqzIfNeeded (data : List Nat) : List Nat :=
  if eqzMarker.isPrefixOf data then b64decodeBytes (data.drop 4) else data

/-- The `(eqap, eqacs)` pair computed inline by one `EdupageHttp.rpc` attempt
at ordinal `eqav`: zip on odd ordinals via `makeEqapFromCs`, plain base64 on
even ordinals, digest over the resulting `eqap`. -/
def rpcAttemptEnvelope (deflateRaw sha1hex : List Nat → List Nat)
    (cs : List Nat) (eqav : Nat) : List Nat × List Nat :=
  let useZip := eqav % 2 == 1
  let eqap := if useZip then makeEqapFromCs deflateRaw cs else b64encodeBytes cs
  (eqap, sha1hex eqap)

lemma dz_not_prefixOf_b64 (bs : List Nat) :
    dzMarker.isPrefixOf (b64encodeBytes bs) = false := by
  rw [Bool.eq_false_iff]
  intro h
  have h58 : (58 : Nat) ∈ b64encodeBytes bs :=
    isPrefixOf_subset _ _ h 58 (by simp [dzMarker])
  exact b64encodeBytes_ne_58 bs 58 h58 rfl

/-- C2. For every form-encoded byte string `s` and ordinal: an odd
ordinal (`2*v+1`) yields `eqap = "dz:" ++ base64(deflateRaw s)`, an even
ordinal (`2*v`) yields `eqap = base64 s` and the result carries no `"dz:"`
marker. -/
theorem buildEqBody_eqap_encoding
    (deflateRaw sha1hex : List Nat → List Nat) (s : List Nat)
    (v maxEqav : Nat) (useEncryption : Bool) :
    ((buildEqBody deflateRaw sha1hex s (2 * v + 1) maxEqav useEncryption).eqap
        = dzMarker ++ b64encodeBytes (deflateRaw s))
    ∧ ((buildEqBody deflateRaw sha1hex s (2 * v) maxEqav useEncryption).eqap
        = b64encodeBytes s)
    ∧ (dzMarker.isPrefixOf
        (buildEqBody deflateRaw sha1hex s (2 * v) maxEqav useEncryption).eqap
        = false) := by
  have hodd : (2 * v + 1) % 2 = 1 := by omega
  have heven : (2 * v) % 2 = 0 := by omega
  refine ⟨?_, ?_, ?_⟩
  · simp [buildEqBody, hodd]
  · simp [buildEqBody, heven]
  · simp [buildEqBody, heven, dz_not_prefixOf_b64]

/-- C3. The integrity digest `eqacs` always equals the digest of the
exact `eqap` produced in the same call — for `buildEqBody` at every ordinal
(including the empty input), and for the inline envelope of
`EdupageHttp.rpc`; on odd ordinals the digested string is the
marker-prefixed `"dz:" ++ base64(deflateRaw s)`, never the bare form
string. -/
theorem eqacs_digest_of_exact_eqap
    (deflateRaw sha1hex : List Nat → List Nat) (s : List Nat)
    (v maxEqav : Nat) (useEncryption : Bool) :
    ((buildEqBody deflateRaw sha1hex s v maxEqav useEncryption).eqacs
        = sha1hex (buildEqBody deflateRaw sha1hex s v maxEqav useEncryption).eqap)
    ∧ ((buildEqBody deflateRaw sha1hex s (2 * v + 1) maxEqav useEncryption).eqacs
        = sha1hex (dzMarker ++ b64encodeBytes (deflateRaw s)))
    ∧ ((rpcAttemptEnvelope deflateRaw sha1hex s v).2
        = sha1hex (rpcAttemptEnvelope deflateRaw sha1hex s v).1)
    ∧ ((rpcAttemptEnvelope deflateRaw sha1hex s (2 * v + 1)).2
        = sha1hex (dzMarker ++ b64encodeBytes (deflateRaw s))) := by
  have hodd : (2 * v + 1) % 2 = 1 := by omega
  refine ⟨rfl, ?_, rfl, ?_⟩
  · simp [buildEqBody, hodd]
  · simp [rpcAttemptEnvelope, makeEqapFromCs, hodd]

/-- C4. The response decoder (default options): an `"eqz:"`-headed text
decodes to the base64 decoding of its remainder, any other text is returned
unchanged; hence `decode ("eqz:" ++ base64 s) = s` for every byte string
`s`, every text without the marker is a fixed point, and the same holds for
`EdupageHttp.decodeEqzIfNeeded`. -/
theorem unwrapEqResponseText_spec (t s : List Nat) (hs : ∀ b ∈ s, b < 256) :
    (eqzMarker.isPrefixOf t = true →
        unwrapEqResponseText t = b64decodeBytes (t.drop 4))
    ∧ (eqzMarker.isPrefixOf t = false → unwrapEqResponseText t = t)
    ∧ unwrapEqResponseText (eqzMarker ++ b64encodeBytes s) = s
    ∧ decodeEqzIfNeeded (eqzMarker ++ b64encodeBytes s) = s
    ∧ (eqzMarker.isPrefixOf t = false → decodeEqzIfNeeded t = t) := by
  have hpre : eqzMarker.isPrefixOf (eqzMarker ++ b64encodeBytes s) = true :=
    isPrefixOf_append_self _ _
  have hdrop : (eqzMarker ++ b64encodeBytes s).drop 4 = b64encodeBytes s := rfl
  refine ⟨?_, ?_, ?_, ?_, ?_⟩
  · intro h
    simp [unwrapEqResponseText, h]
  · intro h
    simp [unwrapEqResponseText, h]
  · simp [unwrapEqResponseText, hpre, hdrop, b64_roundtrip s hs]
  · simp [decodeEqzIfNeeded, hpre, hdrop, b64_roundtrip s hs]
  · intro h
    simp [decodeEqzIfNeeded, h]

/-- Witness for C4: the decoder round-trips the concrete body `"hi"`
(bytes 104, 105) and leaves an unmarked text untouched. -/
theorem unwrapEqResponseText_spec_witness :
    unwrapEqResponseText (eqzMarker ++ b64encodeBytes [104, 105]) = [104, 105]
    ∧ unwrapEqResponseText [104, 105] = [104, 105] := by
  refine ⟨(unwrapEqResponseText_spec [] [104, 105] (by decide)).2.2.1, ?_⟩
  exact (unwrapEqResponseText_spec [104, 105] [] (by decide)).2.1 (by decide)

/-! ## RPC retry sequencer: `EdupageHttp.rpc` (lib/edupageHttp.js)

One loop iteration wraps the whole attempt in `try { ... } catch (e) {
lastErr = e }`: the posted envelope is abstracted into a stub indexed by
the ordinal `eqav`, `JSON.parse` into an abstract partial parser. -/

/-- The errors an rpc attempt can end in: a transport-level failure
(`http.post` throwing), the `RPC parse failed` error raised when
`JSON.parse` rejects the decoded body (carrying the 200-byte snippet),
or the final `RPC failed (unknown)` fallback. -/
inductive RpcError where
  | transport (code : Nat)
  | parseFailed (snippet : List Nat)
  | unknownFailure
deriving Repr, DecidableEq

/-- What the transport does for the attempt at a given ordinal: throw, or
deliver a response body. -/
inductive AttemptOutcome where
  | transportErr (e : RpcError)
  | response (body : List Nat)
deriving Repr, DecidableEq

/-- How one iteration of the `for (let eqav = 1; ...)` body ends: `return
parsed`, `continue` on an `"eqwd:"` body, or an exception captured by the
surrounding `catch`. -/
inductive StepResult (Val : Type) where
  | success (v : Val)
  | retryEqwd
  | errCaught (e : RpcError)

/-- One iteration of the rpc loop body at ordinal `eqav`: post (via the
stub), `continue` if the raw body starts with `"eqwd:"`, otherwise decode
`"eqz:"` and parse; a parse rejection raises `RPC parse failed` with a
200-byte snippet of the decoded body, and any raised error is caught. -/
def attemptAt {Val : Type} (stub : Nat → AttemptOutcome)
    (jsonParse : List Nat → Option Val) (eqav : Nat) : StepResult Val :=
  match stub eqav with
  | .transportErr e => .errCaught e
  | .response body =>
      if eqwdMarker.isPrefixOf body then .retryEqwd
      else
        match jsonParse (decodeEqzIfNeeded body) with
        | some v => .success v
        | none => .errCaught (.parseFailed ((decodeEqzIfNeeded body).take 200))

/-- The rpc loop over the remaining ordinals, threading `lastErr`; returns
the list of ordinals actually attempted together with the outcome.  When
the ordinals run out it throws `lastErr || new Error('RPC failed
(unknown)')`. -/
def rpcGo {Val : Type} (stub : Nat → AttemptOutcome)
    (jsonParse : List Nat → Option Val) :
    List Nat → Option RpcError → List Nat × Except RpcError Val
  | [], lastErr => ([], .error (lastErr.getD .unknownFailure))
  | eqav :: rest, lastErr =>
      match attemptAt stub jsonParse eqav with
      | .success v => ([eqav], .ok v)
      | .retryEqwd =>
          let r := rpcGo stub jsonParse rest lastErr
          (eqav :: r.1, r.2)
      | .errCaught e =>
          let r := rpcGo stub jsonParse rest (some e)
          (eqav :: r.1, r.2)

/-- Method `EdupageHttp.rpc`: the loop runs the ordinals `1, ..., maxEqav` with
`lastErr` initially null. -/
def rpc {Val : Type} (stub : Nat → AttemptOutcome)
    (jsonParse : List Nat → Option Val) (maxEqav : Nat) :
    List Nat × Except RpcError Val :=
  rpcGo stub jsonParse (List.range' 1 maxEqav) none

lemma rpcGo_all_eqwd {Val : Type} (stub : Nat → AttemptOutcome)
    (jsonParse : List Nat → Option Val)
    (h : ∀ v, attemptAt stub jsonParse v = .retryEqwd) :
    ∀ (l : List Nat) (lastErr : Option RpcError),
      rpcGo stub jsonParse l lastErr
        = (l, .error (lastErr.getD .unknownFailure))
  | [], lastErr => by simp [rpcGo]
  | v :: rest, lastErr => by
      simp [rpcGo, h v, rpcGo_all_eqwd stub jsonParse h rest lastErr]

/-- C9. Against a stub answering every attempt with an
`"eqwd:"`-headed body, `rpc` attempts exactly the ordinals `1, ...,
maxEqav` and then fails with the exhaustion error instead of returning a
value; at the default `maxEqav = 7` that is exactly 7 attempts. -/
theorem rpc_eqwd_exhaustion {Val : Type} (stub : Nat → AttemptOutcome)
    (jsonParse : List Nat → Option Val) (maxEqav : Nat)
    (h : ∀ v, ∃ r, stub v = .response r ∧ eqwdMarker.isPrefixOf r = true) :
    rpc stub jsonParse maxEqav
      = (List.range' 1 maxEqav, .error .unknownFailure)
    ∧ (rpc stub jsonParse 7).1.length = 7 := by
  have hstep : ∀ v, attemptAt stub jsonParse v = .retryEqwd := by
    intro v
    obtain ⟨r, hr, hpre⟩ := h v
    simp [attemptAt, hr, hpre]
  constructor
  · simpa using rpcGo_all_eqwd stub jsonParse hstep (List.range' 1 maxEqav) none
  · simp [rpc, rpcGo_all_eqwd stub jsonParse hstep]

/-- Witness for C9: the constant `"eqwd:"` stub exhausts all 7 default
ordinals. -/
theorem rpc_eqwd_exhaustion_witness :
    rpc (fun _ => AttemptOutcome.response eqwdMarker)
        (fun _ => (none : Option Nat)) 7
      = (List.range' 1 7, .error .unknownFailure) :=
  (rpc_eqwd_exhaustion (fun _ => AttemptOutcome.response eqwdMarker)
    (fun _ => (none : Option Nat)) 7
    (fun _ => ⟨eqwdMarker, rfl, by decide⟩)).1

/-- Stub for the C1 counterexample: the attempt at ordinal 1 throws a
transport error, every later attempt answers with a well-formed
`"eqz:"`-wrapped body. -/
def stubC1 : Nat → AttemptOutcome := fun v =>
  if v = 1 then .transportErr (.transport 500)
  else .response (eqzMarker ++ b64encodeBytes [123, 125])

/-- Parser for the C1 counterexample: accepts exactly the body `"{}"`
(bytes 123, 125). -/
def jsonParseC1 : List Nat → Option Nat := fun bs =>
  if bs = [123, 125] then some 42 else none

/-- C1 counterexample. The claim says an error raised during an
attempt propagates and no further attempt is made.  On this concrete stub
the transport error of attempt 1 is caught, attempt 2 is made with the
next ordinal, and the call returns its parsed value — the error never
propagates. -/
theorem rpc_error_propagation_counterexample :
    rpc stubC1 jsonParseC1 7 = ([1, 2], Except.ok 42) := by
  rfl

/-- C1 amended. An error raised during an attempt (transport failure
or JSON-parse failure) is caught and recorded as the last error, and the
sequencer retries with the next version ordinal exactly as an
`"eqwd:"`-headed body does; the recorded error propagates to the caller
only once all ordinals are exhausted. -/
theorem rpc_error_caught_drives_retry {Val : Type}
    (stub : Nat → AttemptOutcome) (jsonParse : List Nat → Option Val)
    (v : Nat) (rest : List Nat) (lastErr : Option RpcError) (e : RpcError) :
    (attemptAt stub jsonParse v = .errCaught e →
        rpcGo stub jsonParse (v :: rest) lastErr
          = (v :: (rpcGo stub jsonParse rest (some e)).1,
             (rpcGo stub jsonParse rest (some e)).2))
    ∧ rpcGo stub jsonParse [] (some e) = ([], .error e)
    ∧ (attemptAt stub jsonParse v = .retryEqwd →
        rpcGo stub jsonParse (v :: rest) lastErr
          = (v :: (rpcGo stub jsonParse rest lastErr).1,
             (rpcGo stub jsonParse rest lastErr).2)) := by
  refine ⟨?_, by simp [rpcGo], ?_⟩
  · intro h
    simp [rpcGo, h]
  · intro h
    simp [rpcGo, h]

/-- Witness for the amended C1: with only ordinal 1 available and a
transport error there, the caught error is retried past and then thrown at
exhaustion. -/
theorem rpc_error_caught_drives_retry_witness :
    rpcGo stubC1 jsonParseC1 [1] none
      = ([1], Except.error (RpcError.transport 500)) := by
  have h := rpc_error_caught_drives_retry stubC1 jsonParseC1 1 []
    (none : Option RpcError) (RpcError.transport 500)
  rw [h.1 (by rfl), h.2.1]

/-! ## Manual redirect following: `EdupageHttp._requestFollow`
(lib/edupageHttp.js transport). -/

/-- An in-flight request: method string (`'get'`/`'post'`), URL and
optional body, as threaded through the `_requestFollow` loop. -/
structure Hop where
  method : String
  url : String
  data : Option String
deriving Repr, DecidableEq

/-- A transport response as `_requestFollow` inspects it: HTTP status and
the `location` header (absent modelled as `none`). -/
structure HttpResponse where
  status : Nat
  location : Option String
  body : String
deriving Repr, DecidableEq

/-- Predicate `_isRedirect`. -/
def isRedirect (status : Nat) : Bool :=
  status == 301 || status == 302 || status == 303 || status == 307 ||
    status == 308

/-- The case-insensitive test `/^https?:\/\//i` on a location or path. -/
def isAbsoluteHttpUrl (s : String) : Bool :=
  (s.data.take 7).map Char.toLower == "http://".data ||
    (s.data.take 8).map Char.toLower == "https://".data

/-- Function `_resolveLocation`: empty location resolves to the empty string,
absolute URLs and absolute paths pass through, a relative path is joined
onto the current URL up to (and including) its last `'/'` before any
query string, or onto `"/"` when there is no slash. -/
def resolveLocation (currentUrl location : String) : String :=
  if location = "" then ""
  else if isAbsoluteHttpUrl location then location
  else if location.startsWith "/" then location
  else
    let base := (currentUrl.splitOn "?").headD ""
    let pre :=
      match base.data.reverse.dropWhile (fun c => c ≠ '/') with
      | [] => "/"
      | r => String.mk r.reverse
    pre ++ location

/-- The method/body policy `_requestFollow` applies when hopping to a
redirect target: `res.status === 303 || (res.status === 302 &&
currentMethod !== 'get')` downgrades to a bodyless GET, anything else
re-issues the current method and body at the new URL. -/
def redirectNextHop (h : Hop) (status : Nat) (nextUrl : String) : Hop :=
  if status == 303 || (status == 302 && !(h.method == "get")) then
    { method := "get", url := nextUrl, data := none }
  else
    { method := h.method, url := nextUrl, data := h.data }

/-- The `_requestFollow` loop with `maxHops` hops left, against a response
function of the request; a missing or empty `location` on a redirect
status returns the response as-is (`if (!loc) return res`), and running
out of hops throws `Too many redirects`. -/
def requestFollowGo (server : Hop → HttpResponse) :
    Nat → Hop → Except String HttpResponse
  | 0, _ => .error "Too many redirects"
  | hopsLeft + 1, h =>
      let res := server h
      if isRedirect res.status then
        let loc := res.location.getD ""
        if loc = "" then .ok res
        else
          requestFollowGo server hopsLeft
            (redirectNextHop h res.status (resolveLocation h.url loc))
      else .ok res

/-- Function `_requestFollow` with its fixed `maxHops = 8`. -/
def requestFollow (server : Hop → HttpResponse)
    (method url : String) (data : Option String) :
    Except String HttpResponse :=
  requestFollowGo server 8 { method := method, url := url, data := data }

/-- C5. Redirect policy of `_requestFollow`: 303 always downgrades the
next hop to a bodyless GET; 302 does so exactly when the current method is
not GET and otherwise keeps method and body; 301, 307 and 308 re-issue the
current method and body unchanged; a 303 response with a `Location` makes
the loop continue at the downgraded hop. -/
theorem requestFollow_redirect_policy (h : Hop) (u : String) :
    redirectNextHop h 303 u = { method := "get", url := u, data := none }
    ∧ (¬ h.method = "get" →
        redirectNextHop h 302 u = { method := "get", url := u, data := none })
    ∧ (h.method = "get" →
        redirectNextHop h 302 u
          = { method := h.method, url := u, data := h.data })
    ∧ redirectNextHop h 301 u = { method := h.method, url := u, data := h.data }
    ∧ redirectNextHop h 307 u = { method := h.method, url := u, data := h.data }
    ∧ redirectNextHop h 308 u = { method := h.method, url := u, data := h.data }
    ∧ (∀ (server : Hop → HttpResponse) (n : Nat) (loc : String), ¬ loc = "" →
        (server h).status = 303 → (server h).location = some loc →
        requestFollowGo server (n + 1) h
          = requestFollowGo server n
              { method := "get", url := resolveLocation h.url loc,
                data := none }) := by
  refine ⟨?_, ?_, ?_, ?_, ?_, ?_, ?_⟩
  · simp [redirectNextHop]
  · intro hm
    simp [redirectNextHop, hm]
  · intro hm
    simp [redirectNextHop, hm]
  · simp [redirectNextHop]
  · simp [redirectNextHop]
  · simp [redirectNextHop]
  · intro server n loc hne h303 hloc
    simp [requestFollowGo, h303, hloc, isRedirect, hne, redirectNextHop]

/-- Concrete server for the C5 witness: a POST target answering 303 with
`Location: /next`, everything else answering 200. -/
def serverC5 : Hop → HttpResponse := fun h =>
  if h.url = "https://school.example/form" then
    { status := 303, location := some "/next", body := "" }
  else
    { status := 200, location := none, body := "ok" }

/-- Witness for C5: a POST with a body that meets a 303 is replayed as a
bodyless GET to `/next`, and a non-GET 302 hop downgrades likewise. -/
theorem requestFollow_redirect_policy_witness :
    redirectNextHop
        { method := "post", url := "https://school.example/form",
          data := some "payload" } 302 "/next"
      = { method := "get", url := "/next", data := none }
    ∧ requestFollowGo serverC5 8
        { method := "post", url := "https://school.example/form",
          data := some "payload" }
      = requestFollowGo serverC5 7
          { method := "get",
            url := resolveLocation "https://school.example/form" "/next",
            data := none } := by
  constructor
  · exact (requestFollow_redirect_policy _ _).2.1 (by decide)
  · exact (requestFollow_redirect_policy
      { method := "post", url := "https://school.example/form",
        data := some "payload" } "/next").2.2.2.2.2.2 serverC5 7 "/next"
      (by decide) (by rfl) (by rfl)

/-! ## Backoff controller: `_scheduleBackoff` / `_clearBackoffOnSuccess`
(main.js).  Delays are milliseconds as `Nat`; `suggestedMs || 0` is
modelled by a `Nat` argument with 0 for "absent". -/

/-- The adapter's backoff fields. -/
structure BackoffState where
  failCount : Nat
  nextAllowedSyncTs : Nat
  lastFailReason : String
deriving Repr, DecidableEq

/-- The constructor initialisation: `failCount = 0`,
`nextAllowedSyncTs = 0`, empty reason. -/
def initialBackoffState : BackoffState :=
  { failCount := 0, nextAllowedSyncTs := 0, lastFailReason := "" }

/-- The base unit `5 * 60 * 1000` ms (5 minutes). -/
def backoffBaseMs : Nat := 5 * 60 * 1000

/-- The cap `6 * 60 * 60 * 1000` ms (6 hours). -/
def backoffCapMs : Nat := 6 * 60 * 60 * 1000

/-- The inline expression
`Math.min(5*60*1000 * Math.pow(2, Math.max(0, failCount - 1)), 6*60*60*1000)`
of `_scheduleBackoff`, as a function of the already-bumped count. -/
def backoffBase (failCount : Nat) : Nat :=
  min (backoffBaseMs * 2 ^ (max 0 (failCount - 1))) backoffCapMs

/-- Method `_scheduleBackoff(reason, suggestedMs)` at wall-clock `now`:
`failCount = min(failCount + 1, 10)`; delay is the geometric base value
overridden by a larger suggested delay (`Math.max(base, suggestedMs || 0)`);
the gate becomes `now + ms`. -/
def scheduleBackoff (st : BackoffState) (reason : String)
    (suggestedMs now : Nat) : BackoffState :=
  let failCount := min (st.failCount + 1) 10
  let base := backoffBase failCount
  let ms := max base suggestedMs
  { failCount := failCount, nextAllowedSyncTs := now + ms,
    lastFailReason := reason }

/-- Method `_clearBackoffOnSuccess`. -/
def clearBackoffOnSuccess (_st : BackoffState) : BackoffState :=
  { failCount := 0, nextAllowedSyncTs := 0, lastFailReason := "" }

/-- Running `n` consecutive recorded failures from the initial state, with no
caller-suggested delay and the clock pinned at 0, so that
`nextAllowedSyncTs` is exactly the scheduled delay. -/
def failuresIter : Nat → BackoffState
  | 0 => initialBackoffState
  | n + 1 => scheduleBackoff (failuresIter n) "fail" 0 0

lemma failuresIter_failCount (n : Nat) :
    (failuresIter n).failCount = min n 10 := by
  induction n with
  | zero => rfl
  | succ n ih =>
      simp only [failuresIter, scheduleBackoff, ih]
      omega

lemma backoffBase_capped (k : Nat) :
    backoffBase (min k 10) = min (backoffBaseMs * 2 ^ (k - 1)) backoffCapMs := by
  rcases le_or_lt k 10 with h | h
  · rw [min_eq_left h]
    simp [backoffBase, Nat.zero_max]
  · rw [min_eq_right (by omega : (10 : Nat) ≤ k)]
    have hpow : (2 : Nat) ^ 10 ≤ 2 ^ (k - 1) :=
      Nat.pow_le_pow_right (by norm_num) (by omega)
    have hc2 : backoffCapMs ≤ backoffBaseMs * 2 ^ (k - 1) :=
      calc backoffCapMs ≤ backoffBaseMs * 2 ^ 10 := by
            norm_num [backoffBaseMs, backoffCapMs]
        _ ≤ backoffBaseMs * 2 ^ (k - 1) := Nat.mul_le_mul_left _ hpow
    rw [Nat.min_eq_right hc2]
    norm_num [backoffBase, backoffBaseMs, backoffCapMs]

/-- C6. The delay scheduled on the `(n+1)`-th consecutive failure is
exactly `min(5 min × 2^n, 6 h)`; after 1 failure it is the 5-minute base
unit, after 4 consecutive failures exactly 8 × the base unit (40 min);
and a caller-suggested delay at least as large as the computed base
replaces it. -/
theorem scheduleBackoff_geometric (n : Nat) (st : BackoffState)
    (reason : String) (sug now : Nat) :
    ((failuresIter (n + 1)).nextAllowedSyncTs
        = min (backoffBaseMs * 2 ^ n) backoffCapMs)
    ∧ (failuresIter 1).nextAllowedSyncTs = 5 * 60 * 1000
    ∧ (failuresIter 4).nextAllowedSyncTs = 8 * (5 * 60 * 1000)
    ∧ (backoffBase (min (st.failCount + 1) 10) ≤ sug →
        (scheduleBackoff st reason sug now).nextAllowedSyncTs = now + sug) := by
  refine ⟨?_, by rfl, by rfl, ?_⟩
  · have hfc := failuresIter_failCount n
    have hmm : min ((failuresIter n).failCount + 1) 10 = min (n + 1) 10 := by
      omega
    simp only [failuresIter, scheduleBackoff, hmm, Nat.zero_add,
      Nat.max_zero]
    simpa using backoffBase_capped (n + 1)
  · intro hs
    simp only [scheduleBackoff, Nat.max_eq_right hs]

/-- Witness for C6: a suggested 60-minute delay after one failure
overrides the 5-minute computed base. -/
theorem scheduleBackoff_geometric_witness :
    (scheduleBackoff initialBackoffState "captcha" (60 * 60 * 1000) 5).nextAllowedSyncTs
      = 5 + 60 * 60 * 1000 :=
  (scheduleBackoff_geometric 0 initialBackoffState "captcha"
    (60 * 60 * 1000) 5).2.2.2 (by decide)

/-- One recorded event: a failure (`_scheduleBackoff`) with its reason,
suggested delay and wall-clock, or a success (`_clearBackoffOnSuccess`). -/
inductive BackoffOp where
  | fail (reason : String) (suggestedMs now : Nat)
  | success
deriving Repr, DecidableEq

/-- Apply one event to the backoff state. -/
def applyBackoffOp (st : BackoffState) : BackoffOp → BackoffState
  | .fail r s n => scheduleBackoff st r s n
  | .success => clearBackoffOnSuccess st

/-- Run a sequence of events from the constructor state. -/
def runBackoffOps (ops : List BackoffOp) : BackoffState :=
  ops.foldl applyBackoffOp initialBackoffState

lemma foldl_backoff_bounded (ops : List BackoffOp) :
    ∀ st : BackoffState, st.failCount ≤ 10 →
      (ops.foldl applyBackoffOp st).failCount ≤ 10 := by
  induction ops with
  | nil => intro st h; simpa using h
  | cons op rest ih =>
      intro st h
      cases op with
      | fail r s n =>
          exact ih _ (by simp only [applyBackoffOp, scheduleBackoff]; omega)
      | success =>
          exact ih _ (by simp [applyBackoffOp, clearBackoffOnSuccess])

/-- C10. The consecutive-failure counter is bounded: every failure
records `min(failCount + 1, 10)`, every success resets to 0, so after any
sequence of events `failCount ≤ 10` and the exponent
`max(0, failCount - 1)` fed to the geometric formula never exceeds 9. -/
theorem backoff_failCount_bounded (ops : List BackoffOp)
    (st : BackoffState) (r : String) (s n : Nat) :
    (runBackoffOps ops).failCount ≤ 10
    ∧ (scheduleBackoff st r s n).failCount = min (st.failCount + 1) 10
    ∧ (clearBackoffOnSuccess st).failCount = 0
    ∧ max 0 ((scheduleBackoff st r s n).failCount - 1) ≤ 9 := by
  refine ⟨foldl_backoff_bounded ops initialBackoffState (by decide), rfl, rfl, ?_⟩
  simp only [scheduleBackoff]
  omega

/-! ## Captcha detection: `syncOnce` / `makeAbsoluteUrl` / `handleCaptcha`
(main.js with captcha backoff). -/

/-- Substring occurrence on char lists (the shape of a fixed-literal
regex `.test`). -/
def sublistSearch (pat : List Char) : List Char → Bool
  | [] => pat.isPrefixOf []
  | c :: rest => pat.isPrefixOf (c :: rest) || sublistSearch pat rest

/-- Whether `pat` occurs somewhere in `s`. -/
def strContains (s pat : String) : Bool :=
  sublistSearch pat.data s.data

/-- A login RPC response as `syncOnce` inspects it; `errText` is
`loginRes?.err?.error_text || ''`, the other fields default to `""` when
absent. -/
structure LoginRes where
  status : String
  needCaptcha : String
  captchaSrc : String
  errText : String
deriving Repr, DecidableEq

/-- The test `/verdächtige|zusätzlich überprüfen|Text aus dem Bild|captcha/i`
on the error text, with ASCII-and-umlaut-literal case folding modelled by
`Char.toLower` on the text and lower-case pattern literals. -/
def captchaHintTest (errText : String) : Bool :=
  let t := String.mk (errText.data.map Char.toLower)
  strContains t "verdächtige" || strContains t "zusätzlich überprüfen" ||
    strContains t "text aus dem bild" || strContains t "captcha"

/-- Drop the trailing `/`s of the base URL
(`.replace(/\/+$/, '')`). -/
def stripTrailingSlashes (s : String) : String :=
  String.mk (s.data.reverse.dropWhile (fun c => c = '/')).reverse

/-- Function `makeAbsoluteUrl(path)`: empty stays empty, an absolute http(s) URL
passes through, anything else is joined to the origin with exactly one
separating slash. -/
def makeAbsoluteUrl (baseUrl path : String) : String :=
  if path = "" then ""
  else if isAbsoluteHttpUrl path then path
  else
    stripTrailingSlashes baseUrl ++
      (if "/".data.isPrefixOf path.data then path else "/" ++ path)

/-- How a login attempt ends in `syncOnce`. -/
inductive AuthOutcome where
  | captchaChallenge (challengeUrl : String)
  | loginRejected (errText : String)
  | loggedIn
deriving Repr, DecidableEq

/-- The classification `syncOnce` applies to the login response: the
captcha branch fires when the error text matches the hint regex, or
`needCaptcha === '1'`, or a non-empty `captchaSrc` is present, and then
publishes the absolutised challenge URL; otherwise a status other than
`'OK'` is a plain rejection (`error_text || 'Login failed'`). -/
def classifyLogin (baseUrl : String) (r : LoginRes) : AuthOutcome :=
  if captchaHintTest r.errText || r.needCaptcha == "1" ||
      !(r.captchaSrc == "") then
    .captchaChallenge (makeAbsoluteUrl baseUrl r.captchaSrc)
  else if !(r.status == "OK") then
    .loginRejected (if r.errText == "" then "Login failed" else r.errText)
  else .loggedIn

/-- Method `handleCaptcha` sets
`captchaBackoffUntil = Date.now() + 60 * 60 * 1000`. -/
def handleCaptchaBackoffUntil (now : Nat) : Nat :=
  now + 60 * 60 * 1000

/-- The gate at the top of `syncOnce`: the sync is skipped exactly while
`captchaBackoffUntil` is set and the clock has not reached it. -/
def mayProceed (captchaBackoffUntil now : Nat) : Bool :=
  if captchaBackoffUntil ≠ 0 ∧ now < captchaBackoffUntil then false
  else true

/-- C7. The login response `{status: 'X', needCaptcha: '1',
captchaSrc: '/captcha?id=1'}` against origin `https://school.example` is
classified as a captcha challenge (not a plain rejection) whose published
URL is the origin-resolved `https://school.example/captcha?id=1`, and
after `handleCaptcha` the sync gate stays closed for the following 60
minutes. -/
theorem syncOnce_captcha_challenge (t now : Nat)
    (h : t < now + 60 * 60 * 1000) :
    classifyLogin "https://school.example"
        { status := "X", needCaptcha := "1", captchaSrc := "/captcha?id=1",
          errText := "" }
      = AuthOutcome.captchaChallenge "https://school.example/captcha?id=1"
    ∧ mayProceed (handleCaptchaBackoffUntil now) t = false := by
  constructor
  · decide
  · unfold mayProceed handleCaptchaBackoffUntil
    rw [if_pos]
    omega

/-- Witness for C7 at clock 0: the challenge URL is published and the
gate is closed right after the captcha is handled. -/
theorem syncOnce_captcha_challenge_witness :
    classifyLogin "https://school.example"
        { status := "X", needCaptcha := "1", captchaSrc := "/captcha?id=1",
          errText := "" }
      = AuthOutcome.captchaChallenge "https://school.example/captcha?id=1"
    ∧ mayProceed (handleCaptchaBackoffUntil 0) 0 = false :=
  syncOnce_captcha_challenge 0 0 (by omega)

/-! ## Session warmup: `EdupageClient.warmUpTimetable` / `hasCookie`. -/

/-- The cookie store as `hasCookie` queries it after the warmup sequence:
names visible for the host origin, names visible for the parent domain,
and whether `parentBaseUrl()` produced a parent URL at all (it is empty
unless the base URL matches `*.edupage.org`). -/
structure CookieJarView where
  hostCookieNames : List String
  parentCookieNames : List String
  hasParentDomain : Bool
deriving Repr, DecidableEq

/-- Method `hasCookie(name)`: present for the host origin, or — when a parent
domain URL exists — for the parent domain. -/
def hasCookie (jar : CookieJarView) (name : String) : Bool :=
  jar.hostCookieNames.contains name ||
    (jar.hasParentDomain && jar.parentCookieNames.contains name)

/-- The observable outcome of one warmup GET: an HTTP status, or a
thrown error. -/
inductive FetchOutcome where
  | ok (status : Nat)
  | failed
deriving Repr, DecidableEq

/-- The `.catch(() => {})` applied to each warmup fetch: any outcome is
discarded. -/
def swallow (_f : FetchOutcome) : Unit := ()

/-- The error message of `warmUpTimetable` when `edusrs` is missing. -/
def warmupMissingCookieMsg : String :=
  "Missing cookie \"edusrs\" after warmup. Without edusrs EduPage returns \x7b\"reload\":true\x7d. This usually means the login session is not fully established or cookie handling blocks parent-domain cookies (.edupage.org)."

/-- Function `warmUpTimetable`: the fixed GET sequence (`/`, `/dashboard/`,
`/dashboard/eb.php?mode=timetable`) runs with every individual error
swallowed, then the hard requirement `hasCookie('edusrs')` is checked
against the cookie store; `jar` is the store state after the sequence. -/
def warmUpTimetable (fetches : List FetchOutcome) (jar : CookieJarView) :
    Except String Unit :=
  let _ := fetches.map swallow
  if hasCookie jar "edusrs" then .ok () else .error warmupMissingCookieMsg

/-- C8. Warmup succeeds iff the cookie `edusrs` is in the store for
the host origin or the parent domain; when it is absent the thrown error
names exactly that cookie; and the outcome is independent of the HTTP
statuses (or failures) of the warmup fetches. -/
theorem warmUpTimetable_requires_edusrs (jar : CookieJarView)
    (f g : List FetchOutcome) :
    (warmUpTimetable f jar = .ok () ↔ hasCookie jar "edusrs" = true)
    ∧ (hasCookie jar "edusrs" = false →
        warmUpTimetable f jar = .error warmupMissingCookieMsg)
    ∧ strContains warmupMissingCookieMsg "edusrs" = true
    ∧ warmUpTimetable f jar = warmUpTimetable g jar := by
  refine ⟨?_, ?_, by decide, by simp [warmUpTimetable]⟩
  · unfold warmUpTimetable
    rcases h : hasCookie jar "edusrs" <;> simp [h]
  · intro h
    simp [warmUpTimetable, h]

/-- Witness for C8: a warmup whose responses never set `edusrs` (only a
host `PHPSESSID`) fails with the message naming `edusrs`, regardless of
the mixed statuses and one failed fetch. -/
theorem warmUpTimetable_requires_edusrs_witness :
    warmUpTimetable [FetchOutcome.ok 200, FetchOutcome.failed, FetchOutcome.ok 302]
        { hostCookieNames := ["PHPSESSID"], parentCookieNames := [],
          hasParentDomain := true }
      = .error warmupMissingCookieMsg :=
  (warmUpTimetable_requires_edusrs
    { hostCookieNames := ["PHPSESSID"], parentCookieNames := [],
      hasParentDomain := true }
    [FetchOutcome.ok 200, FetchOutcome.failed, FetchOutcome.ok 302]
    []).2.1 (by decide)

end Edupage
